import Mathlib

set_option maxHeartbeats 2000000

/-!
Shallow embedding of the equilibrium / bifurcation analysis core of
`bifurcaciones_1.py` (repository JoaVelazquez/sistemas_dinamicos).

Numeric values are modelled as exact rationals.  The two numerical
black boxes of the source are modelled as oracles supplied to the
embedded functions:

* the companion-matrix root solver `np.roots` (polynomial path of
  `poly_roots_real`) is an `Option (List (ℚ × ℚ))`: `none` models each
  of the three early `return None` cases (not polynomial in `x`,
  symbolic coefficients after substitution, all-zero coefficients),
  `some roots` the list of complex roots `(re, im)` it returns;
* the per-seed `sp.nsolve` calls of `nsolve_roots` are functions
  `ℚ → Option ℚ` (`none` models the raised exception of a seed that
  does not converge).

Everything downstream of those oracles is translated line by line from
the Python source.
-/

/-- Deduplication loop of `unique_sorted` (bifurcaciones_1.py lines 33-37):
fold over the ascending list, keeping a value exactly when it differs from
the last kept value by more than `tol`. -/
def dedupKeep (tol : ℚ) : ℚ → List ℚ → List ℚ
  | _, [] => []
  | last, v :: vs =>
    if |v - last| > tol then v :: dedupKeep tol v vs else dedupKeep tol last vs

/-- `unique_sorted(vals, tol)` (lines 31-37): sort ascending, then keep each
value differing from the previously kept one by more than `tol`; the first
element is always kept (`if not out`). -/
def unique_sorted (vals : List ℚ) (tol : ℚ) : List ℚ :=
  match List.insertionSort (fun a b => a ≤ b) vals with
  | [] => []
  | v :: vs => v :: dedupKeep tol v vs

/-- Clamp-to-zero pass (lines 58 and 81): values of magnitude below 1e-10
are replaced by exactly 0. -/
def clampZero (xs : List ℚ) : List ℚ :=
  xs.map (fun x => if |x| < 1 / 10000000000 then 0 else x)

/-- `poly_roots_real` (lines 39-59) downstream of the `np.roots` call.
The argument is the oracle described in the header; on `some roots` the
source keeps the roots with `|imag| < 1e-9`, takes real parts, clamps noise
to 0, and deduplicates with tolerance 1e-6.  Note that the search window
`[x_min, x_max]` is not an argument: this path never filters by it. -/
def poly_roots_real (companion : Option (List (ℚ × ℚ))) : Option (List ℚ) :=
  companion.map (fun roots =>
    let real_roots := (roots.filter (fun c => |c.2| < 1 / 1000000000)).map (fun c => c.1)
    unique_sorted (clampZero real_roots) (1 / 1000000))

/-- One seed of `nsolve_roots` (lines 64-78): try the plain solve; if it
raises (`none`), try the bracket retry; a solution is kept only when it
lies within `[x_min - 1e-6, x_max + 1e-6]`.  A kept-but-out-of-window first
solve does not fall through to the retry (no exception is raised there). -/
def nsolve_seed (solve1 solve2 : ℚ → Option ℚ) (x_min x_max : ℚ) (s : ℚ) : List ℚ :=
  match solve1 s with
  | some sol =>
    if x_min - 1 / 1000000 ≤ sol ∧ sol ≤ x_max + 1 / 1000000 then [sol] else []
  | none =>
    match solve2 s with
    | some sol =>
      if x_min - 1 / 1000000 ≤ sol ∧ sol ≤ x_max + 1 / 1000000 then [sol] else []
    | none => []

/-- `nsolve_roots` (lines 61-82): collect the per-seed results, deduplicate
with tolerance 1e-4, then clamp near-zero values to 0 (in that order). -/
def nsolve_roots (solve1 solve2 : ℚ → Option ℚ) (x_min x_max : ℚ) (seeds : List ℚ) : List ℚ :=
  clampZero (unique_sorted ((seeds.map (nsolve_seed solve1 solve2 x_min x_max)).flatten) (1 / 10000))

/-- `find_equilibria` (lines 84-89): polynomial path first, numerical
fallback when it returns `None`. -/
def find_equilibria (companion : Option (List (ℚ × ℚ))) (solve1 solve2 : ℚ → Option ℚ)
    (x_min x_max : ℚ) (seeds : List ℚ) : List ℚ :=
  match poly_roots_real companion with
  | some roots => roots
  | none => nsolve_roots solve1 solve2 x_min x_max seeds

/-- Stability labels returned by `stability_fx` (the Spanish strings of the
source: 'estable', 'inestable', 'neutra', 'desconocida'). -/
inductive StabLabel where
  | estable
  | inestable
  | neutra
  | desconocida
deriving DecidableEq, Repr, Inhabited

/-- A Python float as seen by `stability_fx`: a finite value, one of the two
infinities, or NaN. -/
inductive FVal where
  | fin : ℚ → FVal
  | pinf : FVal
  | ninf : FVal
  | nan : FVal
deriving DecidableEq, Repr

/-- Finiteness test mirroring `np.isfinite`. -/
def FVal.isFinite : FVal → Bool
  | .fin _ => true
  | _ => false

/-- `stability_fx` (lines 91-97).  The argument models the outcome of
`float(fx_expr.subs({x: x_star, r: r_val}).evalf())`: `some v` an evaluation
returning the float `v`, `none` an evaluation that raises (e.g. `float(zoo)`
for `f_x = 1/x` at `x_star = 0` raises `TypeError`).  The source has no
`try/except`, so a raising evaluation propagates: the result is `none`. -/
def stability_fx (val : Option FVal) : Option (StabLabel × FVal) :=
  val.map (fun v =>
    match v with
    | .fin q =>
      if q < 0 then (StabLabel.estable, FVal.fin q)
      else if 0 < q then (StabLabel.inestable, FVal.fin q)
      else (StabLabel.neutra, FVal.fin q)
    | _ => (StabLabel.desconocida, FVal.nan))

/-- The derivative of `f(x,r) = r*x - x^2` with respect to `x`, used by the
stability test case of the specification. -/
def fx_rx_sub_x2 (x r : ℚ) : ℚ := r - 2 * x

/-- A branch record: the dict `{'x': …, 'stab': …, 'r': …}` built by
`track_branches`.  An `x` entry `none` models `np.nan`, a `stab` entry
`none` models Python `None`. -/
structure Branch where
  x : List (Option ℚ)
  stab : List (Option StabLabel)
  r : List ℚ
deriving DecidableEq, Repr

/-- Scan for the first index of the minimum (helper for `idxMin`);
`bv` is the current best value, `ci` the index of the next element,
`best` the index of the current best. -/
def idxMinAux : List ℚ → ℚ → Nat → Nat → Nat
  | [], _, _, best => best
  | a :: l, bv, ci, best =>
    if a < bv then idxMinAux l a (ci + 1) ci else idxMinAux l bv (ci + 1) best

/-- First index of the minimum of a nonempty list (ties resolved to the
first occurrence, as `np.argmin` on a NaN-free array). -/
def idxMin : List ℚ → Nat
  | [] => 0
  | a :: l => idxMinAux l a 1 0

/-- `np.argmin` over the row-major flattening of the distance matrix
(line 121).  numpy propagates NaN: if any entry is NaN (`none`), the index
of the first NaN is returned; otherwise the first index of the minimum. -/
def argminFlat (flat : List (Option ℚ)) : Nat :=
  if flat.any (fun o => o.isNone) then flat.findIdx (fun o => o.isNone)
  else idxMin (flat.map (fun o => o.getD 0))

/-- Distance-matrix entry `D[i, j] = abs(prev_vals[ip] - new_roots[jn])`
(line 119): NaN (`none`) exactly when the previous value is NaN. -/
def distEntry (prev_vals : List (Option ℚ)) (new_roots : List ℚ) (ip jn : Nat) : Option ℚ :=
  (prev_vals.getD ip none).map (fun xp => |xp - new_roots.getD jn 0|)

/-- The greedy matching loop of `track_branches` (lines 113-128), recursing
on a fuel that starts at the length of `unmatched_prev`; every iteration
removes one previous index, so the fuel never runs out.  Rebuilding the
matrix from the surviving index lists is the same as deleting row `i_min`
and column `j_min`, since each entry is a pure function of its index pair.
The loop guard `D.size and np.isfinite(D).any()` is: both index lists
nonempty and some entry finite.  Returns the committed pairs and the
leftover unmatched new indices. -/
def greedyMatch (dist : Nat → Nat → Option ℚ) :
    Nat → List Nat → List Nat → List (Nat × Nat) × List Nat
  | 0, _, un => ([], un)
  | fuel + 1, up, un =>
    if up.isEmpty ∨ un.isEmpty then ([], un)
    else
      let flat := (up.map (fun ip => un.map (fun jn => dist ip jn))).flatten
      if flat.all (fun o => o.isNone) then ([], un)
      else
        let k := argminFlat flat
        let i_min := k / un.length
        let j_min := k % un.length
        let rest := greedyMatch dist fuel (up.eraseIdx i_min) (un.eraseIdx j_min)
        ((up.getD i_min 0, un.getD j_min 0) :: rest.1, rest.2)

/-- The pair of assignments `branches[ip]['x'][-1] = new_roots[jn]` and
`branches[ip]['stab'][-1] = new_stab[jn]` (line 132). -/
def setLastB (b : Branch) (xv : ℚ) (sv : StabLabel) : Branch :=
  { b with x := b.x.set (b.x.length - 1) (some xv),
           stab := b.stab.set (b.stab.length - 1) (some sv) }

/-- One iteration of the outer loop of `track_branches` (lines 109-135) at
step `t`: build `prev_vals`, run the greedy matching, append NaN/None to
every branch, overwrite the matched tails, and append one new branch per
unmatched new root, NaN-padded for the `t` prior steps. -/
def stepBranches (new_roots : List ℚ) (new_stab : List StabLabel) (t : Nat)
    (branches : List Branch) : List Branch :=
  let prev_vals := branches.map (fun b => if b.x.length = t then b.x.getLastD none else none)
  let res := greedyMatch (distEntry prev_vals new_roots) branches.length
    (List.range branches.length) (List.range new_roots.length)
  let appended := branches.map (fun b =>
    { b with x := b.x ++ [none], stab := b.stab ++ [none] })
  let updated := res.1.foldl (fun bs p =>
    bs.set p.1 (setLastB (bs.getD p.1 ⟨[], [], []⟩) (new_roots.getD p.2 0)
      (new_stab.getD p.2 StabLabel.estable))) appended
  updated ++ res.2.map (fun jn =>
    ⟨List.replicate t none ++ [some (new_roots.getD jn 0)],
     List.replicate t none ++ [some (new_stab.getD jn StabLabel.estable)], []⟩)

/-- `track_branches` (lines 104-141).  Seed one branch per root of the first
sample (`zip` truncates to the shorter list, as in Python), then run the
matching loop for `t = 1, …, T-1`, and finally set `r` to the full grid and
pad any branch shorter than `T` (the pad width is computed from `x`, and
both `x` and `stab` are padded by it, exactly as in the source).  The
source indexes `roots_list[0]` and `roots_list[t]` directly and raises
`IndexError` on too-short inputs; list indexing is modelled with
`headD`/`getD`, and the theorems below assume sweep-aligned lengths, under
which the two coincide. -/
def track_branches (Rs : List ℚ) (roots_list : List (List ℚ))
    (stabs_list : List (List StabLabel)) : List Branch :=
  let T := Rs.length
  let init := ((roots_list.headD []).zip (stabs_list.headD [])).map
    (fun p => Branch.mk [some p.1] [some p.2] [])
  let looped := (List.range' 1 (T - 1)).foldl
    (fun bs t => stepBranches (roots_list.getD t []) (stabs_list.getD t []) t bs) init
  looped.map (fun b =>
    let b' := { b with r := Rs }
    if b'.x.length < T then
      { b' with x := b'.x ++ List.replicate (T - b'.x.length) none,
                stab := b'.stab ++ List.replicate (T - b'.x.length) none }
    else b')

/-- The classification strings produced by `_analyze_bifurcation_at_point`:
pitchfork, transcritical, saddle-node, equilibria appearing, equilibria
vanishing, stability change, and the `except` fallback (unclassified). -/
inductive BifType where
  | horquilla
  | transcritica
  | sillaNodo
  | aparicion
  | desaparicion
  | cambioEstabilidad
  | noClasificada
deriving DecidableEq, Repr

/-- `sorted(...)` on a list of floats. -/
def sortedQ (l : List ℚ) : List ℚ := List.insertionSort (fun a b => a ≤ b) l

/-- Center of mass `sum(eq_sorted) / len(eq_sorted)` (lines 595-596). -/
def centerQ (l : List ℚ) : ℚ := l.sum / (l.length : ℚ)

/-- Span `abs(eq_sorted[-1] - eq_sorted[0])` between the outermost
equilibria (lines 591-592). -/
def spanQ (l : List ℚ) : ℚ := |l.getLastD 0 - l.headD 0|

/-- `_analyze_bifurcation_at_point` (lines 562-617).  `eqAt rv` models the
fresh `find_equilibria(f_expr, x, r, rv, x_min, x_max)` lookups the method
performs at `r_before`, `r_bif` and `r_after`.  The nested transcritical
`if`s of the source are flattened into one conjunction: the inner checks
failing falls through to the saddle-node test either way.  The equilibrium
list at `r_bif` is computed but never used by the classification, as in the
source.  The `except` branch (`noClasificada`) is unreachable here because
every modelled operation is total. -/
def analyze_bifurcation_at_point (eqAt : ℚ → List ℚ) (r_bif r_before r_after : ℚ) : BifType :=
  let eq_before := eqAt r_before
  let _eq_at := eqAt r_bif
  let eq_after := eqAt r_after
  let n_before := eq_before.length
  let n_after := eq_after.length
  if (n_before = 1 ∧ n_after = 3) ∨ (n_before = 3 ∧ n_after = 1) then
    BifType.horquilla
  else if n_before = n_after ∧ 2 ≤ n_before ∧ 2 ≤ eq_before.length ∧ 2 ≤ eq_after.length ∧
      (|centerQ (sortedQ eq_before) - centerQ (sortedQ eq_after)| > 1 / 1000 ∨
       |spanQ (sortedQ eq_before) - spanQ (sortedQ eq_after)| > 1 / 1000) then
    BifType.transcritica
  else if (n_after < n_before ∧ 1 ≤ n_before - n_after) ∨
      (n_before < n_after ∧ 1 ≤ n_after - n_before) then
    BifType.sillaNodo
  else if n_before < n_after then BifType.aparicion
  else if n_after < n_before then BifType.desaparicion
  else BifType.cambioEstabilidad

/-- `_detect_bifurcation_type` (lines 540-560): scan adjacent sample pairs;
whenever the equilibrium counts differ, append one event at the midpoint,
classified by `_analyze_bifurcation_at_point`.  The guard `if bif_type:` of
line 557 is always true (every branch of the classifier returns a nonempty
string), so every candidate is appended. -/
def detect_bifurcation_type (eqAt : ℚ → List ℚ) (r_values : List ℚ)
    (equilibria_list : List (List ℚ)) : List (ℚ × BifType) :=
  (List.range (r_values.length - 1)).foldl (fun bifurcations i =>
    let r_curr := r_values.getD i 0
    let r_next := r_values.getD (i + 1) 0
    let eq_curr := equilibria_list.getD i []
    let eq_next := equilibria_list.getD (i + 1) []
    if eq_curr.length ≠ eq_next.length then
      bifurcations ++ [((r_curr + r_next) / 2,
        analyze_bifurcation_at_point eqAt ((r_curr + r_next) / 2) r_curr r_next)]
    else bifurcations) []

/-- Double-precision values of `sqrt(k/100)` for `k = 1, ..., 10` and of
`sqrt(1/200)`, written as exact decimal rationals (the shortest-roundtrip
decimal expansions of the IEEE doubles; each is within `1e-16` of the true
square root).  These are the magnitudes of the roots `np.roots` returns for
the polynomial `x^2 + r` at the sample values of the saddle-node scenario;
values outside the table are never consulted by the scenario. -/
def c9sqrt (q : ℚ) : ℚ :=
  if q = 1 / 100 then 1 / 10
  else if q = 2 / 100 then 1414213562373095 / 10000000000000000
  else if q = 3 / 100 then 17320508075688773 / 100000000000000000
  else if q = 4 / 100 then 2 / 10
  else if q = 5 / 100 then 22360679774997896 / 100000000000000000
  else if q = 6 / 100 then 2449489742783178 / 10000000000000000
  else if q = 7 / 100 then 2645751311064591 / 10000000000000000
  else if q = 8 / 100 then 282842712474619 / 1000000000000000
  else if q = 9 / 100 then 3 / 10
  else if q = 10 / 100 then 31622776601683794 / 100000000000000000
  else if q = 1 / 200 then 7071067811865475 / 100000000000000000
  else 0

/-- The complex roots `np.roots([1, 0, r])` of `x^2 + r` returns, for the
sample values of the saddle-node scenario: for `r < 0` two real roots
`±sqrt(-r)`, for `r = 0` the exact double root `0` (the companion matrix is
the zero matrix), for `r > 0` two purely imaginary roots `±i·sqrt(r)`. -/
def c9companion (rv : ℚ) : List (ℚ × ℚ) :=
  if rv < 0 then [(c9sqrt (-rv), 0), (-c9sqrt (-rv), 0)]
  else if rv = 0 then [(0, 0), (0, 0)]
  else [(0, c9sqrt rv), (0, -c9sqrt rv)]

/-- `find_equilibria` for `f(x,r) = r + x^2`: the polynomial path always
succeeds (the coefficients `[1, 0, r]` are numeric and not all zero), so the
`nsolve` oracles and seeds are never consulted; the `[-2, 2]` window of the
scenario is passed but, on this path, never read. -/
def c9eq (rv : ℚ) : List ℚ :=
  find_equilibria (some (c9companion rv)) (fun _ => none) (fun _ => none) (-2) 2 []

/-- The sweep grid of the saddle-node test scenario:
`np.linspace(-0.1, 0.1, 21)`, whose values are exactly `(i - 10)/100`
(the floating-point evaluation `i*((0.1-(-0.1))/20) + (-0.1)` is exact at
every index; in particular sample 10 is exactly `0.0`). -/
def c9grid : List ℚ := (List.range 21).map (fun i => -(1 / 10) + (i : ℚ) * (1 / 100))

/-- The full classifier run of the saddle-node scenario: equilibria are
computed at every grid sample, then `_detect_bifurcation_type` scans the
pairs. -/
def c9run : List (ℚ × BifType) := detect_bifurcation_type c9eq c9grid (c9grid.map c9eq)

/-- Values of the scenario grid `np.linspace(-0.1, 0.1, 21)` as explicit rationals. -/
theorem c9grid_eq : c9grid = [-(1 / 10), -(9 / 100), -(2 / 25), -(7 / 100), -(3 / 50), -(1 / 20), -(1 / 25), -(3 / 100), -(1 / 50), -(1 / 100), 0, 1 / 100, 1 / 50, 3 / 100, 1 / 25, 1 / 20, 3 / 50, 7 / 100, 2 / 25, 9 / 100, 1 / 10] := by
  norm_num [c9grid, List.range, List.range.loop]

/-- Equilibria of `x^2 + r` found at the grid sample `r = -(1 / 100)`. -/
theorem c9eq_neg_1 : c9eq (-(1 / 100)) = [-(1 / 10), 1 / 10] := by
  norm_num [c9eq, c9companion, c9sqrt, find_equilibria, poly_roots_real,
    unique_sorted, dedupKeep, clampZero, List.insertionSort,
    List.orderedInsert, List.filter_cons, List.filter_nil, abs_of_nonpos, abs_of_nonneg]

/-- Equilibria of `x^2 + r` found at the grid sample `r = -(1 / 50)`. -/
theorem c9eq_neg_2 : c9eq (-(1 / 50)) = [-(282842712474619 / 2000000000000000), 282842712474619 / 2000000000000000] := by
  norm_num [c9eq, c9companion, c9sqrt, find_equilibria, poly_roots_real,
    unique_sorted, dedupKeep, clampZero, List.insertionSort,
    List.orderedInsert, List.filter_cons, List.filter_nil, abs_of_nonpos, abs_of_nonneg]

/-- Equilibria of `x^2 + r` found at the grid sample `r = -(3 / 100)`. -/
theorem c9eq_neg_3 : c9eq (-(3 / 100)) = [-(17320508075688773 / 100000000000000000), 17320508075688773 / 100000000000000000] := by
  norm_num [c9eq, c9companion, c9sqrt, find_equilibria, poly_roots_real,
    unique_sorted, dedupKeep, clampZero, List.insertionSort,
    List.orderedInsert, List.filter_cons, List.filter_nil, abs_of_nonpos, abs_of_nonneg]

/-- Equilibria of `x^2 + r` found at the grid sample `r = -(1 / 25)`. -/
theorem c9eq_neg_4 : c9eq (-(1 / 25)) = [-(1 / 5), 1 / 5] := by
  norm_num [c9eq, c9companion, c9sqrt, find_equilibria, poly_roots_real,
    unique_sorted, dedupKeep, clampZero, List.insertionSort,
    List.orderedInsert, List.filter_cons, List.filter_nil, abs_of_nonpos, abs_of_nonneg]

/-- Equilibria of `x^2 + r` found at the grid sample `r = -(1 / 20)`. -/
theorem c9eq_neg_5 : c9eq (-(1 / 20)) = [-(2795084971874737 / 12500000000000000), 2795084971874737 / 12500000000000000] := by
  norm_num [c9eq, c9companion, c9sqrt, find_equilibria, poly_roots_real,
    unique_sorted, dedupKeep, clampZero, List.insertionSort,
    List.orderedInsert, List.filter_cons, List.filter_nil, abs_of_nonpos, abs_of_nonneg]

/-- Equilibria of `x^2 + r` found at the grid sample `r = -(3 / 50)`. -/
theorem c9eq_neg_6 : c9eq (-(3 / 50)) = [-(1224744871391589 / 5000000000000000), 1224744871391589 / 5000000000000000] := by
  norm_num [c9eq, c9companion, c9sqrt, find_equilibria, poly_roots_real,
    unique_sorted, dedupKeep, clampZero, List.insertionSort,
    List.orderedInsert, List.filter_cons, List.filter_nil, abs_of_nonpos, abs_of_nonneg]

/-- Equilibria of `x^2 + r` found at the grid sample `r = -(7 / 100)`. -/
theorem c9eq_neg_7 : c9eq (-(7 / 100)) = [-(2645751311064591 / 10000000000000000), 2645751311064591 / 10000000000000000] := by
  norm_num [c9eq, c9companion, c9sqrt, find_equilibria, poly_roots_real,
    unique_sorted, dedupKeep, clampZero, List.insertionSort,
    List.orderedInsert, List.filter_cons, List.filter_nil, abs_of_nonpos, abs_of_nonneg]

/-- Equilibria of `x^2 + r` found at the grid sample `r = -(2 / 25)`. -/
theorem c9eq_neg_8 : c9eq (-(2 / 25)) = [-(282842712474619 / 1000000000000000), 282842712474619 / 1000000000000000] := by
  norm_num [c9eq, c9companion, c9sqrt, find_equilibria, poly_roots_real,
    unique_sorted, dedupKeep, clampZero, List.insertionSort,
    List.orderedInsert, List.filter_cons, List.filter_nil, abs_of_nonpos, abs_of_nonneg]

/-- Equilibria of `x^2 + r` found at the grid sample `r = -(9 / 100)`. -/
theorem c9eq_neg_9 : c9eq (-(9 / 100)) = [-(3 / 10), 3 / 10] := by
  norm_num [c9eq, c9companion, c9sqrt, find_equilibria, poly_roots_real,
    unique_sorted, dedupKeep, clampZero, List.insertionSort,
    List.orderedInsert, List.filter_cons, List.filter_nil, abs_of_nonpos, abs_of_nonneg]

/-- Equilibria of `x^2 + r` found at the grid sample `r = -(1 / 10)`. -/
theorem c9eq_neg_10 : c9eq (-(1 / 10)) = [-(15811388300841897 / 50000000000000000), 15811388300841897 / 50000000000000000] := by
  norm_num [c9eq, c9companion, c9sqrt, find_equilibria, poly_roots_real,
    unique_sorted, dedupKeep, clampZero, List.insertionSort,
    List.orderedInsert, List.filter_cons, List.filter_nil, abs_of_nonpos, abs_of_nonneg]

/-- Equilibria found at the grid sample `r = 0`: the double root collapses to `[0]`. -/
theorem c9eq_zero : c9eq 0 = [0] := by
  norm_num [c9eq, c9companion, c9sqrt, find_equilibria, poly_roots_real,
    unique_sorted, dedupKeep, clampZero, List.insertionSort,
    List.orderedInsert, List.filter_cons, List.filter_nil, abs_of_nonpos, abs_of_nonneg]

/-- No real equilibria at the grid sample `r = 1 / 100`. -/
theorem c9eq_pos_1 : c9eq (1 / 100) = [] := by
  norm_num [c9eq, c9companion, c9sqrt, find_equilibria, poly_roots_real,
    unique_sorted, dedupKeep, clampZero, List.insertionSort,
    List.orderedInsert, List.filter_cons, List.filter_nil, abs_of_nonpos, abs_of_nonneg]

/-- No real equilibria at the grid sample `r = 1 / 50`. -/
theorem c9eq_pos_2 : c9eq (1 / 50) = [] := by
  norm_num [c9eq, c9companion, c9sqrt, find_equilibria, poly_roots_real,
    unique_sorted, dedupKeep, clampZero, List.insertionSort,
    List.orderedInsert, List.filter_cons, List.filter_nil, abs_of_nonpos, abs_of_nonneg]

/-- No real equilibria at the grid sample `r = 3 / 100`. -/
theorem c9eq_pos_3 : c9eq (3 / 100) = [] := by
  norm_num [c9eq, c9companion, c9sqrt, find_equilibria, poly_roots_real,
    unique_sorted, dedupKeep, clampZero, List.insertionSort,
    List.orderedInsert, List.filter_cons, List.filter_nil, abs_of_nonpos, abs_of_nonneg]

/-- No real equilibria at the grid sample `r = 1 / 25`. -/
theorem c9eq_pos_4 : c9eq (1 / 25) = [] := by
  norm_num [c9eq, c9companion, c9sqrt, find_equilibria, poly_roots_real,
    unique_sorted, dedupKeep, clampZero, List.insertionSort,
    List.orderedInsert, List.filter_cons, List.filter_nil, abs_of_nonpos, abs_of_nonneg]

/-- No real equilibria at the grid sample `r = 1 / 20`. -/
theorem c9eq_pos_5 : c9eq (1 / 20) = [] := by
  norm_num [c9eq, c9companion, c9sqrt, find_equilibria, poly_roots_real,
    unique_sorted, dedupKeep, clampZero, List.insertionSort,
    List.orderedInsert, List.filter_cons, List.filter_nil, abs_of_nonpos, abs_of_nonneg]

/-- No real equilibria at the grid sample `r = 3 / 50`. -/
theorem c9eq_pos_6 : c9eq (3 / 50) = [] := by
  norm_num [c9eq, c9companion, c9sqrt, find_equilibria, poly_roots_real,
    unique_sorted, dedupKeep, clampZero, List.insertionSort,
    List.orderedInsert, List.filter_cons, List.filter_nil, abs_of_nonpos, abs_of_nonneg]

/-- No real equilibria at the grid sample `r = 7 / 100`. -/
theorem c9eq_pos_7 : c9eq (7 / 100) = [] := by
  norm_num [c9eq, c9companion, c9sqrt, find_equilibria, poly_roots_real,
    unique_sorted, dedupKeep, clampZero, List.insertionSort,
    List.orderedInsert, List.filter_cons, List.filter_nil, abs_of_nonpos, abs_of_nonneg]

/-- No real equilibria at the grid sample `r = 2 / 25`. -/
theorem c9eq_pos_8 : c9eq (2 / 25) = [] := by
  norm_num [c9eq, c9companion, c9sqrt, find_equilibria, poly_roots_real,
    unique_sorted, dedupKeep, clampZero, List.insertionSort,
    List.orderedInsert, List.filter_cons, List.filter_nil, abs_of_nonpos, abs_of_nonneg]

/-- No real equilibria at the grid sample `r = 9 / 100`. -/
theorem c9eq_pos_9 : c9eq (9 / 100) = [] := by
  norm_num [c9eq, c9companion, c9sqrt, find_equilibria, poly_roots_real,
    unique_sorted, dedupKeep, clampZero, List.insertionSort,
    List.orderedInsert, List.filter_cons, List.filter_nil, abs_of_nonpos, abs_of_nonneg]

/-- No real equilibria at the grid sample `r = 1 / 10`. -/
theorem c9eq_pos_10 : c9eq (1 / 10) = [] := by
  norm_num [c9eq, c9companion, c9sqrt, find_equilibria, poly_roots_real,
    unique_sorted, dedupKeep, clampZero, List.insertionSort,
    List.orderedInsert, List.filter_cons, List.filter_nil, abs_of_nonpos, abs_of_nonneg]

/-- Equilibria at the midpoint `r = -(1/200)` re-solved by the classifier. -/
theorem c9eq_mid_neg : c9eq (-(1 / 200)) = [-(282842712474619 / 4000000000000000), 282842712474619 / 4000000000000000] := by
  norm_num [c9eq, c9companion, c9sqrt, find_equilibria, poly_roots_real,
    unique_sorted, dedupKeep, clampZero, List.insertionSort,
    List.orderedInsert, List.filter_cons, List.filter_nil, abs_of_nonpos, abs_of_nonneg]

/-- Equilibria at the midpoint `r = 1/200` re-solved by the classifier. -/
theorem c9eq_mid_pos : c9eq (1 / 200) = [] := by
  norm_num [c9eq, c9companion, c9sqrt, find_equilibria, poly_roots_real,
    unique_sorted, dedupKeep, clampZero, List.insertionSort,
    List.orderedInsert, List.filter_cons, List.filter_nil, abs_of_nonpos, abs_of_nonneg]

/-- Full evaluation of the classifier run of the saddle-node scenario: two
events are emitted, at the midpoints of the two count-changing sample pairs. -/
theorem c9run_eval :
    c9run = [(-(1 / 200), BifType.sillaNodo), (1 / 200, BifType.sillaNodo)] := by
  rw [c9run, c9grid_eq]
  simp only [List.map_cons, List.map_nil, c9eq_neg_10, c9eq_neg_9, c9eq_neg_8, c9eq_neg_7, c9eq_neg_6, c9eq_neg_5, c9eq_neg_4, c9eq_neg_3, c9eq_neg_2, c9eq_neg_1, c9eq_zero, c9eq_pos_1, c9eq_pos_2, c9eq_pos_3, c9eq_pos_4, c9eq_pos_5, c9eq_pos_6, c9eq_pos_7, c9eq_pos_8, c9eq_pos_9, c9eq_pos_10, c9eq_mid_neg, c9eq_mid_pos]
  norm_num [detect_bifurcation_type, analyze_bifurcation_at_point, centerQ, spanQ,
    sortedQ, List.range, List.range.loop, List.insertionSort, List.orderedInsert,
    c9eq_neg_10, c9eq_neg_9, c9eq_neg_8, c9eq_neg_7, c9eq_neg_6, c9eq_neg_5, c9eq_neg_4, c9eq_neg_3, c9eq_neg_2, c9eq_neg_1, c9eq_zero, c9eq_pos_1, c9eq_pos_2, c9eq_pos_3, c9eq_pos_4, c9eq_pos_5, c9eq_pos_6, c9eq_pos_7, c9eq_pos_8, c9eq_pos_9, c9eq_pos_10, c9eq_mid_neg, c9eq_mid_pos,
    abs_of_nonpos, abs_of_nonneg]
/-- C5: whenever the derivative evaluation yields a finite float `v`,
`stability_fx` returns the label by the sign of `v` paired with `v` itself
(negative: estable, positive: inestable, zero: neutra); a non-finite float
(NaN or either infinity) yields ('desconocida', NaN).  In particular, for
`f(x,r) = r*x - x^2` (so `f_x = r - 2x`) at `r = 1`: the root `x* = 0` is
inestable with raw derivative `1`, and `x* = 1` is estable with raw
derivative `-1`. -/
theorem stability_fx_sign_spec :
    (∀ q : ℚ, q < 0 → stability_fx (some (FVal.fin q)) = some (StabLabel.estable, FVal.fin q)) ∧
    (∀ q : ℚ, 0 < q → stability_fx (some (FVal.fin q)) = some (StabLabel.inestable, FVal.fin q)) ∧
    stability_fx (some (FVal.fin 0)) = some (StabLabel.neutra, FVal.fin 0) ∧
    stability_fx (some FVal.nan) = some (StabLabel.desconocida, FVal.nan) ∧
    stability_fx (some FVal.pinf) = some (StabLabel.desconocida, FVal.nan) ∧
    stability_fx (some FVal.ninf) = some (StabLabel.desconocida, FVal.nan) ∧
    stability_fx (some (FVal.fin (fx_rx_sub_x2 0 1))) = some (StabLabel.inestable, FVal.fin 1) ∧
    stability_fx (some (FVal.fin (fx_rx_sub_x2 1 1))) = some (StabLabel.estable, FVal.fin (-1)) := by
  refine ⟨fun q hq => ?_, fun q hq => ?_, ?_, ?_, ?_, ?_, ?_, ?_⟩
  · simp [stability_fx, hq]
  · have h1 : ¬q < 0 := not_lt.mpr hq.le
    simp [stability_fx, h1, hq]
  · simp [stability_fx]
  · simp [stability_fx]
  · simp [stability_fx]
  · simp [stability_fx]
  · norm_num [stability_fx, fx_rx_sub_x2]
  · norm_num [stability_fx, fx_rx_sub_x2]

/-- Witness for `stability_fx_sign_spec` at the concrete value `-1`. -/
theorem stability_fx_sign_spec_witness :
    stability_fx (some (FVal.fin (-1))) = some (StabLabel.estable, FVal.fin (-1)) :=
  stability_fx_sign_spec.1 (-1) (by norm_num)

/-- C4 counterexample: `stability_fx` contains no exception handler, so an
evaluation of `f_x` that raises (modelled by the input `none`, realised e.g.
by `f_x = 1/x` at `x* = 0`, where `float(zoo)` raises `TypeError`) is not
mapped to the ('desconocida', NaN) result: the exception propagates to the
caller (output `none`), contradicting the claim that every evaluation error
is caught. -/
theorem stability_fx_error_not_caught :
    stability_fx none = none ∧
    stability_fx none ≠ some (StabLabel.desconocida, FVal.nan) := by
  exact ⟨rfl, by simp [stability_fx]⟩

/-- C4 amended: for every evaluation of `f_x` that returns a float (instead
of raising), `stability_fx` returns a result, and every non-finite float
(NaN or either infinity) is mapped to ('desconocida', NaN); only a raising
evaluation escapes, since the source has no `try/except`. -/
theorem stability_fx_total_on_evaluated :
    ∀ v : FVal, (stability_fx (some v)).isSome = true ∧
      (v.isFinite = false → stability_fx (some v) = some (StabLabel.desconocida, FVal.nan)) := by
  intro v
  cases v <;> simp [stability_fx, FVal.isFinite]

/-- Witness for `stability_fx_total_on_evaluated` at the concrete value NaN. -/
theorem stability_fx_total_on_evaluated_witness :
    (stability_fx (some FVal.nan)).isSome = true ∧
      stability_fx (some FVal.nan) = some (StabLabel.desconocida, FVal.nan) :=
  ⟨(stability_fx_total_on_evaluated FVal.nan).1,
   (stability_fx_total_on_evaluated FVal.nan).2 rfl⟩

/-- C10: the per-event classifier never returns the fallback labels
'Aparición de equilibrios' or 'Desaparición de equilibrios': when the
re-solved counts differ and neither the pitchfork nor the transcritical
check fires, the saddle-node branch fires first, so the appearing/vanishing
branches are unreachable, and every count-changing event not classified as
pitchfork or transcritical is labelled saddle-node. -/
theorem analyze_never_aparicion_desaparicion :
    ∀ (eqAt : ℚ → List ℚ) (r_bif r_before r_after : ℚ),
      analyze_bifurcation_at_point eqAt r_bif r_before r_after ≠ BifType.aparicion ∧
      analyze_bifurcation_at_point eqAt r_bif r_before r_after ≠ BifType.desaparicion ∧
      (((eqAt r_before).length ≠ (eqAt r_after).length ∧
          analyze_bifurcation_at_point eqAt r_bif r_before r_after ≠ BifType.horquilla ∧
          analyze_bifurcation_at_point eqAt r_bif r_before r_after ≠ BifType.transcritica) →
        analyze_bifurcation_at_point eqAt r_bif r_before r_after = BifType.sillaNodo) := by
  intro eqAt r_bif r_before r_after
  simp only [analyze_bifurcation_at_point]
  split_ifs with h1 h2 h3 h4 h5
  · exact ⟨by simp, by simp, fun hc => absurd rfl hc.2.1⟩
  · exact ⟨by simp, by simp, fun hc => absurd rfl hc.2.2⟩
  · exact ⟨by simp, by simp, fun _ => rfl⟩
  · exact absurd (Or.inr ⟨h4, by omega⟩) h3
  · exact absurd (Or.inl ⟨h5, by omega⟩) h3
  · exact ⟨by simp, by simp, fun hc => absurd hc.1 (by omega)⟩

/-- Witness for `analyze_never_aparicion_desaparicion`: a 1-to-0 equilibrium
count change that is neither pitchfork nor transcritical is classified
saddle-node. -/
theorem analyze_never_aparicion_desaparicion_witness :
    analyze_bifurcation_at_point (fun r => if r < 0 then [0] else []) 0 (-1) 1 =
      BifType.sillaNodo := by
  have heval : analyze_bifurcation_at_point (fun r => if r < 0 then [0] else []) 0 (-1) 1 =
      BifType.sillaNodo := by
    norm_num [analyze_bifurcation_at_point]
  exact (analyze_never_aparicion_desaparicion (fun r => if r < 0 then [0] else []) 0 (-1) 1).2.2
    ⟨by norm_num, by rw [heval]; decide, by rw [heval]; decide⟩

/-- C3: the classifier applies its checks in the fixed order pitchfork,
transcritical, saddle-node, fallback: the event is labelled pitchfork
exactly when the re-solved equilibrium count transitions 1-to-3 or 3-to-1
between `r_before` and `r_after`; otherwise transcritical exactly when the
counts are equal and at least 2 and the sorted equilibria differ in
center-of-mass or span by more than 1/1000; otherwise saddle-node exactly
when the counts differ. -/
theorem analyze_classification_iff :
    ∀ (eqAt : ℚ → List ℚ) (r_bif r_before r_after : ℚ),
      (analyze_bifurcation_at_point eqAt r_bif r_before r_after = BifType.horquilla ↔
        ((eqAt r_before).length = 1 ∧ (eqAt r_after).length = 3) ∨
        ((eqAt r_before).length = 3 ∧ (eqAt r_after).length = 1)) ∧
      (analyze_bifurcation_at_point eqAt r_bif r_before r_after = BifType.transcritica ↔
        ¬(((eqAt r_before).length = 1 ∧ (eqAt r_after).length = 3) ∨
          ((eqAt r_before).length = 3 ∧ (eqAt r_after).length = 1)) ∧
        ((eqAt r_before).length = (eqAt r_after).length ∧ 2 ≤ (eqAt r_before).length ∧
          (|centerQ (sortedQ (eqAt r_before)) - centerQ (sortedQ (eqAt r_after))| > 1 / 1000 ∨
           |spanQ (sortedQ (eqAt r_before)) - spanQ (sortedQ (eqAt r_after))| > 1 / 1000))) ∧
      (analyze_bifurcation_at_point eqAt r_bif r_before r_after = BifType.sillaNodo ↔
        ¬(((eqAt r_before).length = 1 ∧ (eqAt r_after).length = 3) ∨
          ((eqAt r_before).length = 3 ∧ (eqAt r_after).length = 1)) ∧
        ¬((eqAt r_before).length = (eqAt r_after).length ∧ 2 ≤ (eqAt r_before).length ∧
          (|centerQ (sortedQ (eqAt r_before)) - centerQ (sortedQ (eqAt r_after))| > 1 / 1000 ∨
           |spanQ (sortedQ (eqAt r_before)) - spanQ (sortedQ (eqAt r_after))| > 1 / 1000)) ∧
        (eqAt r_before).length ≠ (eqAt r_after).length) := by
  intro eqAt r_bif r_before r_after
  simp only [analyze_bifurcation_at_point]
  split_ifs with h1 h2 h3 h4 h5
  · exact ⟨iff_of_true rfl h1,
      iff_of_false (by decide) (fun hc => hc.1 h1),
      iff_of_false (by decide) (fun hc => hc.1 h1)⟩
  · exact ⟨iff_of_false (by decide) h1,
      iff_of_true rfl ⟨h1, h2.1, h2.2.1, h2.2.2.2.2⟩,
      iff_of_false (by decide) (fun hc => hc.2.1 ⟨h2.1, h2.2.1, h2.2.2.2.2⟩)⟩
  · exact ⟨iff_of_false (by decide) h1,
      iff_of_false (by decide)
        (fun hc => h2 ⟨hc.2.1, hc.2.2.1, hc.2.2.1, hc.2.1 ▸ hc.2.2.1, hc.2.2.2⟩),
      iff_of_true rfl ⟨h1,
        fun tc => h2 ⟨tc.1, tc.2.1, tc.2.1, tc.1 ▸ tc.2.1, tc.2.2⟩, by omega⟩⟩
  · exact absurd (Or.inr ⟨h4, by omega⟩) h3
  · exact absurd (Or.inl ⟨h5, by omega⟩) h3
  · exact ⟨iff_of_false (by decide) h1,
      iff_of_false (by decide)
        (fun hc => h2 ⟨hc.2.1, hc.2.2.1, hc.2.2.1, hc.2.1 ▸ hc.2.2.1, hc.2.2.2⟩),
      iff_of_false (by decide) (fun hc => absurd hc.2.2 (by omega))⟩

/-- Folding an append-one-if step over a list equals filtering then mapping
(shape of the event loop of `_detect_bifurcation_type`). -/
theorem foldl_append_if {α β : Type} (p : α → Prop) [DecidablePred p] (g : α → β) :
    ∀ (l : List α) (acc : List β),
      l.foldl (fun a i => if p i then a ++ [g i] else a) acc
        = acc ++ (l.filter (fun i => decide (p i))).map g := by
  intro l
  induction l with
  | nil => intro acc; simp
  | cons x xs ih =>
    intro acc
    by_cases h : p x
    · simp [h, ih, List.filter_cons]
    · simp [h, ih, List.filter_cons]

/-- C6: the detector emits exactly one candidate event per adjacent sample
pair with differing equilibrium counts — the event list is the filtered
pair indices mapped to (midpoint, classification) — and when the sample
grid is strictly increasing, every emitted `r_bif` is the midpoint of, and
lies strictly between, two consecutive samples.  In particular no event is
emitted when no adjacent pair's counts differ (the filter is empty). -/
theorem detect_midpoint_events :
    ∀ (eqAt : ℚ → List ℚ) (rs : List ℚ) (eqs : List (List ℚ)),
      (detect_bifurcation_type eqAt rs eqs =
        ((List.range (rs.length - 1)).filter
            (fun i => decide ((eqs.getD i []).length ≠ (eqs.getD (i + 1) []).length))).map
          (fun i => ((rs.getD i 0 + rs.getD (i + 1) 0) / 2,
            analyze_bifurcation_at_point eqAt ((rs.getD i 0 + rs.getD (i + 1) 0) / 2)
              (rs.getD i 0) (rs.getD (i + 1) 0)))) ∧
      (List.Chain' (fun a b => a < b) rs →
        ∀ e ∈ detect_bifurcation_type eqAt rs eqs,
          ∃ i, i + 1 < rs.length ∧
            (eqs.getD i []).length ≠ (eqs.getD (i + 1) []).length ∧
            e.1 = (rs.getD i 0 + rs.getD (i + 1) 0) / 2 ∧
            rs.getD i 0 < e.1 ∧ e.1 < rs.getD (i + 1) 0) := by
  intro eqAt rs eqs
  have h1 : detect_bifurcation_type eqAt rs eqs =
      ((List.range (rs.length - 1)).filter
          (fun i => decide ((eqs.getD i []).length ≠ (eqs.getD (i + 1) []).length))).map
        (fun i => ((rs.getD i 0 + rs.getD (i + 1) 0) / 2,
          analyze_bifurcation_at_point eqAt ((rs.getD i 0 + rs.getD (i + 1) 0) / 2)
            (rs.getD i 0) (rs.getD (i + 1) 0))) := by
    simp only [detect_bifurcation_type]
    rw [foldl_append_if (fun i => (eqs.getD i []).length ≠ (eqs.getD (i + 1) []).length)
      (fun i => ((rs.getD i 0 + rs.getD (i + 1) 0) / 2,
        analyze_bifurcation_at_point eqAt ((rs.getD i 0 + rs.getD (i + 1) 0) / 2)
          (rs.getD i 0) (rs.getD (i + 1) 0)))]
    simp
  refine ⟨h1, fun hchain e he => ?_⟩
  rw [h1] at he
  rcases List.mem_map.mp he with ⟨i, hi, hgi⟩
  rcases List.mem_filter.mp hi with ⟨hir, hcond⟩
  have hirange : i < rs.length - 1 := List.mem_range.mp hir
  have hi1 : i + 1 < rs.length := by omega
  have hlt : rs.getD i 0 < rs.getD (i + 1) 0 := by
    have hg := List.chain'_iff_get.mp hchain i (by omega)
    rw [List.getD_eq_get _ _ (by omega : i < rs.length),
      List.getD_eq_get _ _ hi1]
    exact hg
  refine ⟨i, hi1, by simpa using hcond, ?_, ?_, ?_⟩
  · rw [← hgi]
  · rw [← hgi]; dsimp only; linarith
  · rw [← hgi]; dsimp only; linarith

/-- Witness for `detect_midpoint_events`: a two-sample grid whose counts
change from 0 to 1 produces its single event at the strict midpoint. -/
theorem detect_midpoint_events_witness :
    ∃ i, i + 1 < 2 ∧
      (([[], [0]] : List (List ℚ)).getD i []).length ≠
        (([[], [0]] : List (List ℚ)).getD (i + 1) []).length ∧
      (((1 : ℚ) / 2, BifType.cambioEstabilidad) : ℚ × BifType).1 =
        (([0, 1] : List ℚ).getD i 0 + ([0, 1] : List ℚ).getD (i + 1) 0) / 2 ∧
      ([0, 1] : List ℚ).getD i 0 < (((1 : ℚ) / 2, BifType.cambioEstabilidad) : ℚ × BifType).1 ∧
      (((1 : ℚ) / 2, BifType.cambioEstabilidad) : ℚ × BifType).1 < ([0, 1] : List ℚ).getD (i + 1) 0 :=
  (detect_midpoint_events (fun _ => []) [0, 1] [[], [0]]).2
    (by norm_num [List.chain'_cons, List.chain'_singleton])
    ((1 : ℚ) / 2, BifType.cambioEstabilidad)
    (by norm_num [detect_bifurcation_type, analyze_bifurcation_at_point, List.range,
      List.range.loop, centerQ, spanQ, sortedQ])

/-- C9 counterexample: on the saddle-node scenario `f(x,r) = r + x^2` with
the sweep `np.linspace(-0.1, 0.1, 21)` of the repository's own test (sample
10 is exactly `r = 0`, where the double root gives one equilibrium), the
classifier reports two events, not exactly one. -/
theorem c9_not_exactly_one_event : c9run.length ≠ 1 := by
  rw [c9run_eval]; decide

/-- C9 amended: the run reports exactly two events, at `r = -1/200` and
`r = 1/200` (the midpoints of the two count-changing adjacent pairs), both
within `0.02` of `0` and both of type saddle-node. -/
theorem c9_two_saddle_node_events :
    c9run = [(-(1 / 200), BifType.sillaNodo), (1 / 200, BifType.sillaNodo)] ∧
    ∀ e ∈ c9run, |e.1 - 0| ≤ 1 / 50 ∧ e.2 = BifType.sillaNodo := by
  refine ⟨c9run_eval, ?_⟩
  rw [c9run_eval]
  intro e he
  rcases List.mem_cons.mp he with rfl | he'
  · norm_num [abs_of_nonpos]
  · rcases List.mem_singleton.mp he' with rfl
    norm_num [abs_of_nonneg]

/-- Witness for `c9_two_saddle_node_events` at the first emitted event. -/
theorem c9_two_saddle_node_events_witness :
    |(-(1 / 200) : ℚ) - 0| ≤ 1 / 50 ∧ BifType.sillaNodo = BifType.sillaNodo :=
  c9_two_saddle_node_events.2 (-(1 / 200), BifType.sillaNodo)
    (by rw [c9run_eval]; exact List.mem_cons_self _ _)

/-- Membership in the deduplication pass implies membership in its input. -/
theorem dedupKeep_mem (tol : ℚ) :
    ∀ (l : List ℚ) (last y : ℚ), y ∈ dedupKeep tol last l → y ∈ l := by
  intro l
  induction l with
  | nil => intro last y hy; simp [dedupKeep] at hy
  | cons v vs ih =>
    intro last y hy
    simp only [dedupKeep] at hy
    split_ifs at hy with h
    · rcases List.mem_cons.mp hy with rfl | hy'
      · exact List.mem_cons_self _ _
      · exact List.mem_cons_of_mem _ (ih v y hy')
    · exact List.mem_cons_of_mem _ (ih last y hy)

/-- Membership in `unique_sorted` implies membership in the input values. -/
theorem unique_sorted_mem (vals : List ℚ) (tol : ℚ) :
    ∀ y ∈ unique_sorted vals tol, y ∈ vals := by
  intro y hy
  unfold unique_sorted at hy
  rcases hsort : List.insertionSort (fun a b => a ≤ b) vals with _ | ⟨v, vs⟩
  · rw [hsort] at hy
    simp at hy
  · rw [hsort] at hy
    have hy2 : y ∈ v :: dedupKeep tol v vs := hy
    have hmem : y ∈ v :: vs := by
      rcases List.mem_cons.mp hy2 with rfl | hy'
      · exact List.mem_cons_self _ _
      · exact List.mem_cons_of_mem _ (dedupKeep_mem tol vs v y hy')
    rw [← hsort] at hmem
    exact ((List.perm_insertionSort (fun a b => a ≤ b) vals).mem_iff).mp hmem

/-- Every value a seed contributes lies within the widened search window
(the explicit check of lines 68 and 75). -/
theorem nsolve_seed_window (solve1 solve2 : ℚ → Option ℚ) (x_min x_max s : ℚ) :
    ∀ y ∈ nsolve_seed solve1 solve2 x_min x_max s,
      x_min - 1 / 1000000 ≤ y ∧ y ≤ x_max + 1 / 1000000 := by
  intro y hy
  unfold nsolve_seed at hy
  rcases h1 : solve1 s with _ | sol
  · rw [h1] at hy
    rcases h2 : solve2 s with _ | sol2
    · rw [h2] at hy
      simp at hy
    · rw [h2] at hy
      have hy' : y ∈ (if x_min - 1 / 1000000 ≤ sol2 ∧ sol2 ≤ x_max + 1 / 1000000
          then [sol2] else []) := hy
      split_ifs at hy' with hcond
      · have := List.mem_singleton.mp hy'
        subst this
        exact hcond
      · simp at hy'
  · rw [h1] at hy
    have hy' : y ∈ (if x_min - 1 / 1000000 ≤ sol ∧ sol ≤ x_max + 1 / 1000000
        then [sol] else []) := hy
    split_ifs at hy' with hcond
    · have := List.mem_singleton.mp hy'
      subst this
      exact hcond
    · simp at hy'

/-- C1 amended: on the numerical fallback path (the polynomial path
returning `None`), every value returned by `find_equilibria` lies within
`[x_min - ε, x_max + ε]` for `ε = 1e-6 + 1e-10` (the window slack of the
seed filter plus the possible clamp-to-0 shift); on the polynomial path no
window restriction applies (see the counterexample). -/
theorem find_equilibria_fallback_window :
    ∀ (solve1 solve2 : ℚ → Option ℚ) (x_min x_max : ℚ) (seeds : List ℚ),
      ∀ y ∈ find_equilibria none solve1 solve2 x_min x_max seeds,
        x_min - (1 / 1000000 + 1 / 10000000000) ≤ y ∧
          y ≤ x_max + (1 / 1000000 + 1 / 10000000000) := by
  intro solve1 solve2 x_min x_max seeds y hy
  have hy1 : y ∈ nsolve_roots solve1 solve2 x_min x_max seeds := hy
  unfold nsolve_roots clampZero at hy1
  rcases List.mem_map.mp hy1 with ⟨x, hx, hclamp⟩
  have hx2 : x ∈ (seeds.map (nsolve_seed solve1 solve2 x_min x_max)).flatten :=
    unique_sorted_mem _ _ x hx
  rcases List.mem_flatten.mp hx2 with ⟨l, hl, hxl⟩
  rcases List.mem_map.mp hl with ⟨s, _, rfl⟩
  have hwin := nsolve_seed_window solve1 solve2 x_min x_max s x hxl
  by_cases hsmall : |x| < 1 / 10000000000
  · rw [if_pos hsmall] at hclamp
    rcases abs_lt.mp hsmall with ⟨hs1, hs2⟩
    constructor
    · rw [← hclamp]; linarith [hwin.1]
    · rw [← hclamp]; linarith [hwin.2]
  · rw [if_neg hsmall] at hclamp
    subst hclamp
    exact ⟨by linarith [hwin.1], by linarith [hwin.2]⟩

/-- Witness for `find_equilibria_fallback_window`: a solver that returns the
root 0 from the single seed, inside the window `[-1, 1]`. -/
theorem find_equilibria_fallback_window_witness :
    (-1 : ℚ) - (1 / 1000000 + 1 / 10000000000) ≤ 0 ∧
      (0 : ℚ) ≤ 1 + (1 / 1000000 + 1 / 10000000000) :=
  find_equilibria_fallback_window (fun _ => some 0) (fun _ => none) (-1) 1 [0] 0
    (by norm_num [find_equilibria, poly_roots_real, nsolve_roots, nsolve_seed, unique_sorted,
      dedupKeep, clampZero, List.insertionSort, List.orderedInsert, abs_of_nonpos,
      abs_of_nonneg])

/-- C1 counterexample: the polynomial path never consults the search window
— for the polynomial `x^2 - 100` (companion roots `±10`) with window
`[-2, 2]`, the returned root `10` exceeds `x_max + ε` for the spec's
`ε = 1e-6`. -/
theorem find_equilibria_poly_ignores_window :
    10 ∈ find_equilibria (some [(10, 0), (-10, 0)]) (fun _ => none) (fun _ => none) (-2) 2 [] ∧
    ¬((10 : ℚ) ≤ 2 + 1 / 1000000) := by
  constructor
  · have h : find_equilibria (some [(10, 0), (-10, 0)]) (fun _ => none) (fun _ => none) (-2) 2 []
        = [-10, 10] := by
      norm_num [find_equilibria, poly_roots_real, unique_sorted, dedupKeep, clampZero,
        List.insertionSort, List.orderedInsert, List.filter_cons, List.filter_nil,
        abs_of_nonpos, abs_of_nonneg]
    rw [h]
    norm_num
  · norm_num

/-- The values kept by the deduplication pass after a sorted tail form a
chain whose consecutive gaps exceed `tol`. -/
theorem dedupKeep_chain (tol : ℚ) :
    ∀ (l : List ℚ) (last : ℚ), List.Sorted (fun a b => a ≤ b) l → (∀ u ∈ l, last ≤ u) →
      List.Chain (fun a b => tol < b - a) last (dedupKeep tol last l) := by
  intro l
  induction l with
  | nil => intro last _ _; exact List.Chain.nil
  | cons v vs ih =>
    intro last hsort hle
    have hlv : last ≤ v := hle v (List.mem_cons_self _ _)
    have hsort' : List.Sorted (fun a b => a ≤ b) vs := hsort.of_cons
    have hvs : ∀ u ∈ vs, v ≤ u := (List.sorted_cons.mp hsort).1
    simp only [dedupKeep]
    split_ifs with h
    · have habs : tol < v - last := by
        rwa [abs_of_nonneg (by linarith)] at h
      exact List.Chain.cons habs (ih v hsort' hvs)
    · exact ih last hsort' (fun u hu => le_trans hlv (hvs u hu))

/-- The output of `unique_sorted` is pairwise separated by more than `tol`
(for a nonnegative tolerance this implies a strictly ascending list). -/
theorem unique_sorted_pairwise (vals : List ℚ) (tol : ℚ) (ht : 0 ≤ tol) :
    (unique_sorted vals tol).Pairwise (fun a b => tol < b - a) := by
  haveI : IsTrans ℚ (fun a b : ℚ => tol < b - a) := ⟨fun a b c h1 h2 => by
    have h1' : tol < b - a := h1
    have h2' : tol < c - b := h2
    show tol < c - a
    linarith⟩
  unfold unique_sorted
  rcases hsort : List.insertionSort (fun a b => a ≤ b) vals with _ | ⟨v, vs⟩
  · exact List.Pairwise.nil
  · have hs : List.Sorted (fun a b => a ≤ b) (v :: vs) := by
      rw [← hsort]
      exact List.sorted_insertionSort _ _
    have hchain : List.Chain (fun a b => tol < b - a) v (dedupKeep tol v vs) :=
      dedupKeep_chain tol vs v hs.of_cons (List.sorted_cons.mp hs).1
    exact hchain.pairwise

/-- Clamping near-zero values to 0 moves each entry by less than `1e-10`,
so pairwise gaps shrink by less than `2e-10`. -/
theorem clampZero_pairwise (l : List ℚ) (tol : ℚ)
    (h : l.Pairwise (fun a b => tol < b - a)) :
    (clampZero l).Pairwise (fun a b => tol - 2 / 10000000000 < b - a) := by
  unfold clampZero
  rw [List.pairwise_map]
  refine h.imp ?_
  intro a b hab
  by_cases ha : |a| < 1 / 10000000000
  · rcases abs_lt.mp ha with ⟨ha1, ha2⟩
    by_cases hb : |b| < 1 / 10000000000
    · rcases abs_lt.mp hb with ⟨hb1, hb2⟩
      rw [if_pos ha, if_pos hb]
      linarith
    · rw [if_pos ha, if_neg hb]
      linarith
  · by_cases hb : |b| < 1 / 10000000000
    · rcases abs_lt.mp hb with ⟨hb1, hb2⟩
      rw [if_neg ha, if_pos hb]
      linarith
    · rw [if_neg ha, if_neg hb]
      linarith

/-- C7: `find_equilibria` returns a strictly ascending list on both paths,
with pairwise separation exceeding the path's deduplication tolerance:
more than `1e-6` on the polynomial path (which clamps before
deduplicating), and more than `1e-4 - 2e-10` on the numerical path (the
`1e-4` dedup gap can shrink by the later clamp-to-0 of values below
`1e-10` by less than `2e-10`).  The empty list is a valid outcome: a
polynomial with no real roots (companion roots `±i`) yields `[]` and no
failure. -/
theorem find_equilibria_sorted_separated :
    (∀ (companion_roots : List (ℚ × ℚ)) (s1 s2 : ℚ → Option ℚ) (x_min x_max : ℚ)
        (seeds : List ℚ),
      (find_equilibria (some companion_roots) s1 s2 x_min x_max seeds).Pairwise
        (fun a b => a < b ∧ 1 / 1000000 < b - a)) ∧
    (∀ (s1 s2 : ℚ → Option ℚ) (x_min x_max : ℚ) (seeds : List ℚ),
      (find_equilibria none s1 s2 x_min x_max seeds).Pairwise
        (fun a b => a < b ∧ 1 / 10000 - 2 / 10000000000 < b - a)) ∧
    find_equilibria (some [(0, 1), (0, -1)]) (fun _ => none) (fun _ => none) 0 1 [] = [] := by
  refine ⟨?_, ?_, ?_⟩
  · intro roots s1 s2 xmin xmax seeds
    have h : find_equilibria (some roots) s1 s2 xmin xmax seeds =
        unique_sorted
          (clampZero ((roots.filter (fun c => |c.2| < 1 / 1000000000)).map (fun c => c.1)))
          (1 / 1000000) := rfl
    rw [h]
    exact (unique_sorted_pairwise _ (1 / 1000000) (by norm_num)).imp
      (fun hab => ⟨by linarith, hab⟩)
  · intro s1 s2 xmin xmax seeds
    have h : find_equilibria none s1 s2 xmin xmax seeds =
        clampZero (unique_sorted ((seeds.map (nsolve_seed s1 s2 xmin xmax)).flatten)
          (1 / 10000)) := rfl
    rw [h]
    exact (clampZero_pairwise _ _ (unique_sorted_pairwise _ (1 / 10000) (by norm_num))).imp
      (fun hab => ⟨by linarith, hab⟩)
  · norm_num [find_equilibria, poly_roots_real, unique_sorted, dedupKeep, clampZero,
      List.insertionSort, List.orderedInsert, List.filter_cons, List.filter_nil,
      abs_of_nonpos, abs_of_nonneg]

/-- C2 code evaluation at the failing input: sweeping three samples with
roots `[[0, 10], [10], [0, 10]]`, the branch at 0 dies at step 1 (its value
becomes NaN), and at step 2 the NaN entries of the distance matrix poison
`np.argmin` (numpy returns the index of the first NaN), so the dead branch
is matched to the reappearing root 0 and resurrected as `[0, NaN, 0]` —
instead of being excluded from matching and a new branch `[NaN, NaN, 0]`
being created.  Only two branches come out, not three. -/
theorem track_branches_resurrects_dead_branch :
    track_branches [0, 1, 2] [[0, 10], [10], [0, 10]]
      [[StabLabel.estable, StabLabel.estable], [StabLabel.estable],
       [StabLabel.estable, StabLabel.estable]] =
    [⟨[some 0, none, some 0], [some StabLabel.estable, none, some StabLabel.estable],
      [0, 1, 2]⟩,
     ⟨[some 10, some 10, some 10],
      [some StabLabel.estable, some StabLabel.estable, some StabLabel.estable],
      [0, 1, 2]⟩] := by
  norm_num [track_branches, stepBranches, greedyMatch, distEntry, argminFlat, idxMin, idxMinAux,
    setLastB, List.range', List.range, List.range.loop, List.zip, List.zipWith,
    List.findIdx, List.findIdx.go, List.eraseIdx, List.getLast?, List.flatten]

/-- Appending one NaN/None entry does not change lookups with default
`none`. -/
theorem getD_append_none {α : Type} :
    ∀ (l : List (Option α)) (i : Nat), (l ++ [none]).getD i none = l.getD i none := by
  intro l
  induction l with
  | nil => intro i; cases i <;> simp [List.getD]
  | cons a l ih =>
    intro i
    cases i with
    | zero => simp
    | succ j => simpa using ih j

/-- Lookup in the NaN-padded row of a newborn branch. -/
theorem getD_pad {α : Type} :
    ∀ (t i : Nat) (v : α),
      ((List.replicate t (none : Option α)) ++ [some v]).getD i none
        = if i = t then some v else none := by
  intro t
  induction t with
  | zero =>
    intro i v
    cases i <;> simp [List.getD]
  | succ n ih =>
    intro i v
    cases i with
    | zero => simp [List.replicate]
    | succ j => simpa [List.replicate] using ih j v

/-- Setting an index leaves other lookups unchanged. -/
theorem getD_set_ne {α : Type} :
    ∀ (l : List α) (n i : Nat) (a d : α), i ≠ n → (l.set n a).getD i d = l.getD i d := by
  intro l
  induction l with
  | nil => intro n i a d _; simp
  | cons x xs ih =>
    intro n i a d hne
    cases n with
    | zero =>
      cases i with
      | zero => exact absurd rfl hne
      | succ j => simp
    | succ m =>
      cases i with
      | zero => simp
      | succ j => simpa using ih m j a d (by omega)

/-- Setting an in-range index updates that lookup. -/
theorem getD_set_self {α : Type} :
    ∀ (l : List α) (n : Nat) (a d : α), n < l.length → (l.set n a).getD n d = a := by
  intro l
  induction l with
  | nil => intro n a d h; simp at h
  | cons x xs ih =>
    intro n a d h
    cases n with
    | zero => simp
    | succ m => simpa using ih m a d (by simpa using h)

/-- Overwriting the last entries of a step-`t` branch with a matched root
and label keeps the length and NaN/None alignment invariant. -/
theorem setLastB_invariant (b : Branch) (t : Nat) (xv : ℚ) (sv : StabLabel)
    (hx : b.x.length = t + 1) (hs : b.stab.length = t + 1)
    (hal : ∀ i, (b.x.getD i none).isSome = (b.stab.getD i none).isSome) :
    (setLastB b xv sv).x.length = t + 1 ∧ (setLastB b xv sv).stab.length = t + 1 ∧
      ∀ i, ((setLastB b xv sv).x.getD i none).isSome
        = ((setLastB b xv sv).stab.getD i none).isSome := by
  unfold setLastB
  refine ⟨by simpa using hx, by simpa using hs, fun i => ?_⟩
  dsimp only
  rw [hx, hs]
  by_cases hi : i = t
  · rw [hi]
    rw [show t + 1 - 1 = t from rfl]
    rw [getD_set_self _ _ _ _ (by omega), getD_set_self _ _ _ _ (by omega)]
    rfl
  · rw [show t + 1 - 1 = t from rfl]
    rw [getD_set_ne _ _ _ _ _ hi, getD_set_ne _ _ _ _ _ hi]
    exact hal i

/-- The pair-commit fold of one tracking step keeps any property preserved
by `setLastB`; an out-of-range pair index leaves the list unchanged. -/
theorem foldl_setLast_preserve (new_roots : List ℚ) (new_stab : List StabLabel)
    (Q : Branch → Prop)
    (hQ : ∀ (b : Branch) (xv : ℚ) (sv : StabLabel), Q b → Q (setLastB b xv sv)) :
    ∀ (pairs : List (Nat × Nat)) (bs : List Branch), (∀ b ∈ bs, Q b) →
      ∀ b ∈ pairs.foldl (fun bs p =>
          bs.set p.1 (setLastB (bs.getD p.1 ⟨[], [], []⟩) (new_roots.getD p.2 0)
            (new_stab.getD p.2 StabLabel.estable))) bs, Q b := by
  intro pairs
  induction pairs with
  | nil => intro bs h b hb; exact h b hb
  | cons p ps ih =>
    intro bs h b hb
    rw [List.foldl_cons] at hb
    refine ih _ ?_ b hb
    intro b' hb'
    by_cases hp : p.1 < bs.length
    · rcases List.mem_or_eq_of_mem_set hb' with h1 | h2
      · exact h b' h1
      · subst h2
        refine hQ _ _ _ (h _ ?_)
        rw [List.getD_eq_getElem _ _ hp]
        exact List.getElem_mem hp
    · rw [List.set_eq_of_length_le (le_of_not_lt hp)] at hb'
      exact h b' hb'

/-- One iteration of the tracking loop takes every branch from length `t`
to length `t + 1` and keeps the x/stab alignment, for the surviving, the
matched, and the newborn branches alike. -/
theorem stepBranches_invariant (new_roots : List ℚ) (new_stab : List StabLabel) (t : Nat)
    (branches : List Branch)
    (hinv : ∀ b ∈ branches, b.x.length = t ∧ b.stab.length = t ∧
      ∀ i, (b.x.getD i none).isSome = (b.stab.getD i none).isSome) :
    ∀ b ∈ stepBranches new_roots new_stab t branches,
      b.x.length = t + 1 ∧ b.stab.length = t + 1 ∧
      ∀ i, (b.x.getD i none).isSome = (b.stab.getD i none).isSome := by
  intro b hb
  simp only [stepBranches] at hb
  rcases List.mem_append.mp hb with hup | hnew
  · refine foldl_setLast_preserve new_roots new_stab
      (fun b => b.x.length = t + 1 ∧ b.stab.length = t + 1 ∧
        ∀ i, (b.x.getD i none).isSome = (b.stab.getD i none).isSome)
      (fun b xv sv hQ => setLastB_invariant b t xv sv hQ.1 hQ.2.1 hQ.2.2) _ _ ?_ b hup
    intro b' hb'
    rcases List.mem_map.mp hb' with ⟨b0, hb0, rfl⟩
    rcases hinv b0 hb0 with ⟨h1, h2, h3⟩
    refine ⟨by simpa using h1, by simpa using h2, fun i => ?_⟩
    dsimp only
    rw [getD_append_none, getD_append_none]
    exact h3 i
  · rcases List.mem_map.mp hnew with ⟨jn, _, rfl⟩
    refine ⟨by simp, by simp, fun i => ?_⟩
    dsimp only
    rw [getD_pad, getD_pad]
    by_cases hi : i = t <;> simp [hi]

/-- Folding the tracking step over consecutive step indices turns length-
`t0` branches into length-`t0 + k` branches, keeping alignment. -/
theorem track_loop_invariant (roots_list : List (List ℚ))
    (stabs_list : List (List StabLabel)) :
    ∀ (k t0 : Nat) (bs : List Branch),
      (∀ b ∈ bs, b.x.length = t0 ∧ b.stab.length = t0 ∧
        ∀ i, (b.x.getD i none).isSome = (b.stab.getD i none).isSome) →
      ∀ b ∈ (List.range' t0 k).foldl
          (fun bs t => stepBranches (roots_list.getD t []) (stabs_list.getD t []) t bs) bs,
        b.x.length = t0 + k ∧ b.stab.length = t0 + k ∧
        ∀ i, (b.x.getD i none).isSome = (b.stab.getD i none).isSome := by
  intro k
  induction k with
  | zero => intro t0 bs h b hb; simpa using h b hb
  | succ n ih =>
    intro t0 bs h b hb
    rw [List.range'_succ, List.foldl_cons] at hb
    have h1 := stepBranches_invariant (roots_list.getD t0 []) (stabs_list.getD t0 []) t0 bs h
    obtain ⟨ha, hbb, hc⟩ := ih (t0 + 1) _ h1 b hb
    exact ⟨by omega, by omega, hc⟩

/-- C8: for every sweep with at least one sample, every branch output by
`track_branches` has its `x`, `stab` and `r` sequences of length exactly
`T = len(Rs)`, with `r` the full sample grid, and with the NaN entries of
`x` and the None entries of `stab` at exactly the same indices (absence
padding, including the pre-birth prefix of late-born branches). -/
theorem track_branches_shape :
    ∀ (Rs : List ℚ) (roots_list : List (List ℚ)) (stabs_list : List (List StabLabel)),
      1 ≤ Rs.length →
      ∀ b ∈ track_branches Rs roots_list stabs_list,
        b.x.length = Rs.length ∧ b.stab.length = Rs.length ∧ b.r = Rs ∧
        ∀ i, (b.x.getD i none).isSome = (b.stab.getD i none).isSome := by
  intro Rs rl sl hT b hb
  simp only [track_branches] at hb
  rcases List.mem_map.mp hb with ⟨b0, hb0, hbeq⟩
  have hinit : ∀ b' ∈ ((rl.headD []).zip (sl.headD [])).map
      (fun p => Branch.mk [some p.1] [some p.2] []),
      b'.x.length = 1 ∧ b'.stab.length = 1 ∧
      ∀ i, (b'.x.getD i none).isSome = (b'.stab.getD i none).isSome := by
    intro b' hb'
    rcases List.mem_map.mp hb' with ⟨p, _, rfl⟩
    refine ⟨rfl, rfl, fun i => ?_⟩
    cases i <;> simp [List.getD]
  obtain ⟨hx, hs, hal⟩ := track_loop_invariant rl sl (Rs.length - 1) 1 _ hinit b0 hb0
  have hxlen : b0.x.length = Rs.length := by omega
  have hslen : b0.stab.length = Rs.length := by omega
  have hcond : ¬ (({ b0 with r := Rs } : Branch).x.length < Rs.length) := by
    dsimp only
    omega
  rw [← hbeq]
  rw [if_neg hcond]
  exact ⟨hxlen, hslen, rfl, hal⟩

/-- Witness for `track_branches_shape`: a one-sample sweep with a single
root. -/
theorem track_branches_shape_witness :
    (Branch.mk [some 1] [some StabLabel.estable] [0]).x.length = 1 ∧
    (Branch.mk [some 1] [some StabLabel.estable] [0]).stab.length = 1 ∧
    (Branch.mk [some 1] [some StabLabel.estable] [0]).r = [0] ∧
    ∀ i, ((Branch.mk [some 1] [some StabLabel.estable] [0]).x.getD i none).isSome
      = ((Branch.mk [some 1] [some StabLabel.estable] [0]).stab.getD i none).isSome :=
  track_branches_shape [0] [[1]] [[StabLabel.estable]] (by norm_num)
    (Branch.mk [some 1] [some StabLabel.estable] [0])
    (by norm_num [track_branches, stepBranches, List.range', List.zip, List.zipWith])
